import Mathlib

/-!
Shallow embedding of the ExaLotto lottery contract (`Lottery` in the Solidity
sources, together with its `UserTickets` library) and proofs about it.

Conventions of the embedding:
* Solidity 0.8 unsigned integers (`uint256`, `uint`, `uint8`, ...) are embedded
  as `Nat`.  Solidity 0.8 arithmetic is checked: an overflowing operation
  reverts instead of wrapping, so on every non-reverting execution the computed
  values coincide with the `Nat` values.  Subtractions performed by the
  contract are shown (or are easily seen) to never underflow, so Lean's
  truncating `Nat` subtraction also coincides with them.
* Division is Solidity's truncating integer division, which is `Nat` division.
  Solidity reverts on division by zero while `Nat.div x 0 = 0`; the only
  division with a variable divisor is the per-category `prizes[i] / winners[i]`
  step, which the contract only reaches with `winners[i] > 0` on consistent
  round data (a positive combinatorial weight of a ticket implies at least
  that many winning combinations were counted).  Both the embedded code and
  the embedded reference computation use the same convention, so the
  comparisons below are unaffected.
* Storage arrays of fixed length are embedded as functions out of `Fin n`;
  storage mappings as functions out of `Nat`; dynamic arrays as `List`s.
* A reverting call is an `Except.error e` carrying the Solidity custom error;
  reverting rolls the transaction back, so an error outcome leaves the
  contract state unchanged by construction.
-/

namespace Exalotto

/-- Modelled from the spec: the `TicketIndex` library's fixed prime table is
not among the provided sources (only its callers and its tests are).  Per the
spec, `getPrime` maps index 0 to the sentinel 1 and indices 1..90 to the first
90 primes (index 1 → 2, ..., index 90 → 463), exactly the values asserted by
the repository's `TicketIndexTest` suite.  The revert on indices above 90 is
not modelled because no embedded call site reaches them. -/
def primeList : List Nat :=
  [2, 3, 5, 7, 11, 13, 17, 19, 23, 29,
   31, 37, 41, 43, 47, 53, 59, 61, 67, 71,
   73, 79, 83, 89, 97, 101, 103, 107, 109, 113,
   127, 131, 137, 139, 149, 151, 157, 163, 167, 173,
   179, 181, 191, 193, 197, 199, 211, 223, 227, 229,
   233, 239, 241, 251, 257, 263, 269, 271, 277, 281,
   283, 293, 307, 311, 313, 317, 331, 337, 347, 349,
   353, 359, 367, 373, 379, 383, 389, 397, 401, 409,
   419, 421, 431, 433, 439, 443, 449, 457, 461, 463]

/-- Modelled from the spec: `TicketIndex.getPrime` (see `primeList`). -/
def getPrime (n : Nat) : Nat :=
  (1 :: primeList).getD n 1

/-- `Lottery._choose6`: binomial coefficient (n choose 6). -/
def choose6 (n : Nat) : Nat :=
  if n < 6 then 0
  else n * (n - 1) * (n - 2) * (n - 3) * (n - 4) * (n - 5) / 720

/-- Recursion core of `Lottery._choose`.  Solidity's recursion decreases `k`
at each call (in the symmetry branch `n - k < k` holds because `k * 2 > n`);
the structural `fuel` argument, kept at least `k + 1`, makes the recursion
structural so that the kernel can evaluate it; the `fuel = 0` branch is
unreachable. -/
def chooseGo : Nat → Nat → Nat → Nat
  | 0, _, _ => 0
  | fuel + 1, n, k =>
    if k > n then 0
    else if k = 0 then 1
    else if k * 2 > n then chooseGo fuel n (n - k)
    else n * chooseGo fuel (n - 1) (k - 1) / k

/-- `Lottery._choose`: binomial coefficient (n choose k). -/
def chooseFn (n k : Nat) : Nat :=
  chooseGo (k + 1) n k

theorem chooseGo_eq : ∀ fuel n k, k < fuel → chooseGo fuel n k = Nat.choose n k := by
  intro fuel
  induction fuel with
  | zero => intro n k h; omega
  | succ f ih =>
    intro n k _
    simp only [chooseGo]
    split_ifs with h1 h2 h3
    · exact (Nat.choose_eq_zero_of_lt h1).symm
    · subst h2; simp
    · rw [ih n (n - k) (by omega), Nat.choose_symm (by omega)]
    · have hk : 1 ≤ k := by omega
      have hn : 1 ≤ n := by omega
      rw [ih (n - 1) (k - 1) (by omega)]
      have h := Nat.succ_mul_choose_eq (n - 1) (k - 1)
      simp only [Nat.succ_eq_add_one] at h
      rw [Nat.sub_add_cancel hn, Nat.sub_add_cancel hk] at h
      rw [h, Nat.mul_div_cancel _ (by omega)]

theorem chooseFn_eq (n k : Nat) : chooseFn n k = Nat.choose n k :=
  chooseGo_eq (k + 1) n k (by omega)

theorem descFactorial_six (n : Nat) :
    n * (n - 1) * (n - 2) * (n - 3) * (n - 4) * (n - 5) = Nat.descFactorial n 6 := by
  have h : Nat.descFactorial n 6
      = (n - 5) * ((n - 4) * ((n - 3) * ((n - 2) * ((n - 1) * (n * 1))))) := rfl
  rw [h]; ring

theorem choose6_eq (n : Nat) : choose6 n = Nat.choose n 6 := by
  unfold choose6
  split_ifs with h
  · exact (Nat.choose_eq_zero_of_lt h).symm
  · rw [descFactorial_six, Nat.choose_eq_descFactorial_div_factorial]
    norm_num [Nat.factorial]

/-- `Lottery.RoundData`: per-round aggregate state.  The `ticketIndex` map of
the `TicketIndex` library (hash → number of tickets) is kept for completeness
although no claim below computes with it. -/
structure RoundData where
  baseTicketPrice : Nat
  ticketIndex : Nat → Nat
  prizes : Fin 5 → Nat
  stash : Nat
  totalCombinations : Nat
  combinationsByReferralCode : Nat → Nat
  drawBlockNumber : Nat
  vrfRequestId : Nat
  numbers : Fin 6 → Nat
  closureBlockNumber : Nat
  winners : Fin 5 → Nat

/-- A freshly pushed round: Solidity's `_rounds.push()` zero-fills every
field. -/
def round0 : RoundData :=
  { baseTicketPrice := 0
    ticketIndex := fun _ => 0
    prizes := fun _ => 0
    stash := 0
    totalCombinations := 0
    combinationsByReferralCode := fun _ => 0
    drawBlockNumber := 0
    vrfRequestId := 0
    numbers := fun _ => 0
    closureBlockNumber := 0
    winners := fun _ => 0 }

/-- `Lottery.getPrizes`, computed on the current round's data. -/
def getPrizes (round : RoundData) : Fin 5 → Nat :=
  let value := round.baseTicketPrice * round.totalCombinations
  let value := value - value / 10 * 2
  fun i => round.prizes i + value * 188 / 1000

/-- `Lottery.getJackpot`, computed on the current round's data. -/
def getJackpot (round : RoundData) : Nat :=
  let value := round.baseTicketPrice * round.totalCombinations
  let value := value - value / 10 * 2
  round.prizes 4 + value * 188 / 1000

/-- `Lottery.getStash`, computed on the current round's data. -/
def getStash (round : RoundData) : Nat :=
  let value := round.baseTicketPrice * round.totalCombinations
  let value := value - value / 10 * 2
  round.stash + value - value * 188 / 1000 * 5

/-- `Lottery.getTotalRevenue`, computed on the current round's data. -/
def getTotalRevenue (round : RoundData) : Nat :=
  let totalValue := round.baseTicketPrice * round.totalCombinations
  totalValue / 10 * 2

/-- `Lottery.fund`, restricted to its effect on the current round's data (the
only state it touches besides performing the currency-token transfer). -/
def fund (value : Nat) (round : RoundData) : RoundData :=
  let stash := value * 60 / 248
  { round with
    prizes := Function.update round.prizes 4 (round.prizes 4 + (value - stash))
    stash := round.stash + stash }

/-- `Lottery._createNewRound`: push a zero round, set its base ticket price,
carry over the pot of every category without winners, and move the stash into
the new jackpot exactly when the jackpot category had winners. -/
def createNewRound (baseTicketPrice : Nat) (previousRound : RoundData) : RoundData :=
  { round0 with
    baseTicketPrice := baseTicketPrice
    prizes := fun i =>
      match i with
      | ⟨0, _⟩ => if previousRound.winners 0 = 0 then previousRound.prizes 0 else 0
      | ⟨1, _⟩ => if previousRound.winners 1 = 0 then previousRound.prizes 1 else 0
      | ⟨2, _⟩ => if previousRound.winners 2 = 0 then previousRound.prizes 2 else 0
      | ⟨3, _⟩ => if previousRound.winners 3 = 0 then previousRound.prizes 3 else 0
      | ⟨4, _⟩ => if previousRound.winners 4 > 0 then previousRound.stash
                  else previousRound.prizes 4
    stash := if previousRound.winners 4 > 0 then 0 else previousRound.stash }

/-- `TicketData` from the `UserTickets` library sources. -/
structure TicketData where
  hash : Nat
  blockNumber : Nat
  id : Nat
  round : Nat
  cardinality : Nat
  withdrawn : Bool
deriving DecidableEq

def ticket0 : TicketData :=
  { hash := 0, blockNumber := 0, id := 0, round := 0, cardinality := 0, withdrawn := false }

/-- The match count computed by `Lottery._getPrizeData`: one divisibility test
of the ticket's hash against the prime of each of the round's 6 drawn
numbers. -/
def countMatches (hash : Nat) (numbers : Fin 6 → Nat) : Nat :=
  (if hash % getPrime (numbers 0) = 0 then 1 else 0)
  + (if hash % getPrime (numbers 1) = 0 then 1 else 0)
  + (if hash % getPrime (numbers 2) = 0 then 1 else 0)
  + (if hash % getPrime (numbers 3) = 0 then 1 else 0)
  + (if hash % getPrime (numbers 4) = 0 then 1 else 0)
  + (if hash % getPrime (numbers 5) = 0 then 1 else 0)

/-- Total access to `prizes[n]`.  The prize loop only indexes with
`n = i - 2 ≤ matchCount - 2 ≤ 4`, so the out-of-bounds branch is unreachable. -/
def prizeAt (round : RoundData) (n : Nat) : Nat :=
  if h : n < 5 then round.prizes ⟨n, h⟩ else 0

/-- Total access to `winners[n]`; see `prizeAt`. -/
def winnersAt (round : RoundData) (n : Nat) : Nat :=
  if h : n < 5 then round.winners ⟨n, h⟩ else 0

/-- The prize loop of `Lottery._getPrizeData`:
`for (uint i = 2; i <= matchCount; i++)`, accumulating
`prizes[i - 2] * weight / winners[i - 2]` whenever the combinatorial weight
`_choose(matchCount, i) * _choose(cardinality - matchCount, 6 - i)` is positive.
`List.range' 2 (matchCount - 1)` is exactly `[2, ..., matchCount]`. -/
def prizeLoop (round : RoundData) (cardinality matchCount : Nat) : Nat :=
  (List.range' 2 (matchCount - 1)).foldl
    (fun prize i =>
      prize +
        (let weight := chooseFn matchCount i * chooseFn (cardinality - matchCount) (6 - i)
         if weight > 0 then prizeAt round (i - 2) * weight / winnersAt round (i - 2)
         else 0))
    0

/-- The prize computed by `Lottery._getPrizeData` for a ticket of a closed
round. -/
def ticketPrize (round : RoundData) (ticket : TicketData) : Nat :=
  prizeLoop round ticket.cardinality (countMatches ticket.hash round.numbers)

/-- Reference computation, following the words of the claim: the prize is the
sum, for each category `i` from 2 up to `matchCount`, of
`prizes[i-2] * (C(matchCount, i) * C(cardinality - matchCount, 6 - i)) / winners[i-2]`
with truncating division applied per category before summing, a category
contributing only when its weight is positive. -/
def referencePrize (round : RoundData) (cardinality matchCount : Nat) : Nat :=
  ∑ i ∈ Finset.Icc 2 matchCount,
    (let weight := Nat.choose matchCount i * Nat.choose (cardinality - matchCount) (6 - i)
     if weight > 0 then prizeAt round (i - 2) * weight / winnersAt round (i - 2) else 0)

/-- Modelled from the spec: `TicketIndex.indexTicket`'s returned hash (the
encoder itself is not among the provided sources).  Per the spec, the hash of
a ticket is the product of the primes corresponding to its numbers, computed
in an integer wide enough that the product never overflows. -/
def encode (numbers : List Nat) : Nat :=
  (numbers.map getPrime).prod

/-- `UserTickets._getTicketNumbers`: recover the numbers of a ticket by
testing divisibility of its hash by the prime of each number 1..90, in
ascending order.  The source writes the hits into an array of length
`cardinality`; this embedding returns the list of hits (identical contents
for every ticket whose hash has exactly `cardinality` prime divisors in the
table, which holds for all validly encoded tickets). -/
def getTicketNumbers (hash : Nat) : List Nat :=
  (List.range' 1 90).filter (fun j => hash % getPrime j == 0)

/-- The custom errors of the `Lottery` contract that the embedded operations
can raise. -/
inductive LotteryError where
  | InvalidTicketId (ticketId : Nat)
  | InvalidRoundNumber (round : Nat)
  | NoPrize (ticketId : Nat)
  | PrizeAlreadyWithdrawn (ticketId : Nat)
deriving DecidableEq

/-- The slice of the `Lottery` contract state that ticket-prize withdrawal
reads and writes.  Players (addresses) are numbered by `Nat`;
`ticketsByPlayer` embeds `_ticketsByPlayer` and `playersByTicket` the
homonymous array (slot 0 unused since ticket ID 0 is invalid).  `transfers`
records the currency-token transfers performed, newest first. -/
structure LotteryState where
  playersByTicket : List Nat
  ticketsByPlayer : Nat → List TicketData
  rounds : List RoundData
  transfers : List (Nat × Nat)

/-- `Lottery.getCurrentRound`. -/
def getCurrentRound (s : LotteryState) : Nat :=
  s.rounds.length - 1

/-- The binary search of `UserTickets.getTicket`, searching the half-open
index interval `[i, j)`.  It only ever inspects ticket ids, so it is phrased
over the list of ids; it returns the position of the hit, standing for the
storage reference the source returns, or `none` where the source reverts.
The loop shrinks `j - i` at every iteration, so with structural `fuel` kept
at least `j - i` the `fuel = 0` branch coincides with loop exit. -/
def findTicket (ids : List Nat) (ticketId : Nat) : Nat → Nat → Nat → Option Nat
  | 0, _, _ => none
  | fuel + 1, i, j =>
    if j > i then
      let k := i + (j - i) / 2
      if ticketId < ids.getD k 0 then findTicket ids ticketId fuel i k
      else if ticketId > ids.getD k 0 then findTicket ids ticketId fuel (k + 1) j
      else some k
    else none

/-- `UserTickets.getTicket` on a player's ticket list. -/
def getTicket (tickets : List TicketData) (ticketId : Nat) : Option Nat :=
  findTicket (tickets.map TicketData.id) ticketId tickets.length 0 tickets.length

/-- The data `Lottery._getPrizeData` returns: the player owning the ticket,
the position of the ticket in the player's list (the storage reference), the
ticket itself, and the prize. -/
structure PrizeData where
  player : Nat
  pos : Nat
  ticket : TicketData
  prize : Nat
deriving DecidableEq

/-- `Lottery._getPrizeData`. -/
def getPrizeData (s : LotteryState) (ticketId : Nat) : Except LotteryError PrizeData :=
  if ticketId ≥ s.playersByTicket.length then .error (.InvalidTicketId ticketId)
  else
    let player := s.playersByTicket.getD ticketId 0
    let tickets := s.ticketsByPlayer player
    match getTicket tickets ticketId with
    | none => .error (.InvalidTicketId ticketId)
    | some pos =>
      let ticket := tickets.getD pos ticket0
      if ticket.round ≥ getCurrentRound s then .error (.InvalidRoundNumber ticket.round)
      else
        let round := s.rounds.getD ticket.round round0
        .ok { player := player, pos := pos, ticket := ticket,
              prize := ticketPrize round ticket }

/-- `ticket.withdrawn = true;`: mark the ticket at position `pos` of `player`
as withdrawn. -/
def markWithdrawn (s : LotteryState) (player pos : Nat) : LotteryState :=
  { s with
    ticketsByPlayer := fun q =>
      if q = player then
        (s.ticketsByPlayer player).set pos
          { (s.ticketsByPlayer player).getD pos ticket0 with withdrawn := true }
      else s.ticketsByPlayer q }

/-- `CURRENCY_TOKEN.transfer(player, prize);`: record the outgoing
currency-token transfer. -/
def recordTransfer (s : LotteryState) (player amount : Nat) : LotteryState :=
  { s with transfers := (player, amount) :: s.transfers }

/-- `Lottery.withdrawPrize`: compute the prize data, reject a zero prize and
an already-withdrawn ticket, then mark the ticket withdrawn before performing
the transfer. -/
def withdrawPrize (s : LotteryState) (ticketId : Nat) : Except LotteryError LotteryState :=
  match getPrizeData s ticketId with
  | .error e => .error e
  | .ok pd =>
    if pd.prize = 0 then .error (.NoPrize ticketId)
    else if pd.ticket.withdrawn then .error (.PrizeAlreadyWithdrawn ticketId)
    else .ok (recordTransfer (markWithdrawn s pd.player pd.pos) pd.player pd.prize)

/-- C10: for every state of the current round, `getJackpot()` returns exactly
the value at index 4 of the array returned by `getPrizes()`, so the two
real-time views can never disagree about the current jackpot. -/
theorem getJackpot_eq_getPrizes_jackpot (round : RoundData) :
    getJackpot round = getPrizes round 4 := rfl

/-- C2: for every state of the current round (in particular every reachable
one), the five category pots reported by `getPrizes()` plus the stash
reported by `getStash()` plus the owner/referral cuts reported by
`getTotalRevenue()` add up exactly to the stored `prizes[0..4]` plus the
stored `stash` plus the round's gross sales value
`baseTicketPrice * totalCombinations`: no integer-division remainder is
unaccounted for. -/
theorem value_conservation (round : RoundData) :
    (∑ i, getPrizes round i) + getStash round + getTotalRevenue round
      = (∑ i, round.prizes i) + round.stash
        + round.baseTicketPrice * round.totalCombinations := by
  simp only [getPrizes, getStash, getTotalRevenue, Finset.sum_add_distrib,
    Finset.sum_const, Finset.card_univ, Fintype.card_fin, smul_eq_mul]
  omega

/-- C3: for every state of the current round, `getPrizes()` adds to each
stored category pot the identical real-time contribution
`(value - (value / 10) * 2) * 188 / 1000` where
`value = baseTicketPrice * totalCombinations` (fee first, as `(value/10)*2`,
then multiplication by 188 before the division by 1000), and the remainder
left unassigned to the prizes, `net - (net * 188 / 1000) * 5`, is exactly
the amount `getStash()` adds on top of the stored stash. -/
theorem getPrizes_getStash_formula (round : RoundData) :
    let value := round.baseTicketPrice * round.totalCombinations
    let net := value - value / 10 * 2
    (∀ i, getPrizes round i = round.prizes i + net * 188 / 1000)
    ∧ getStash round = round.stash + (net - net * 188 / 1000 * 5) := by
  refine ⟨fun i => rfl, ?_⟩
  simp only [getStash]
  omega

/-- C4: `fund(source, value)` adds exactly `value * 60 / 248` to the current
round's stash and the complement `value - value * 60 / 248` to its jackpot
pot `prizes[4]`; the two increments always add up to `value` exactly, and no
other pot or field of the round changes. -/
theorem fund_split (value : Nat) (round : RoundData) :
    (fund value round).stash = round.stash + value * 60 / 248
    ∧ (fund value round).prizes 4 = round.prizes 4 + (value - value * 60 / 248)
    ∧ value * 60 / 248 + (value - value * 60 / 248) = value
    ∧ (∀ i : Fin 5, i ≠ 4 → (fund value round).prizes i = round.prizes i)
    ∧ (fund value round).baseTicketPrice = round.baseTicketPrice
    ∧ (fund value round).ticketIndex = round.ticketIndex
    ∧ (fund value round).totalCombinations = round.totalCombinations
    ∧ (fund value round).combinationsByReferralCode = round.combinationsByReferralCode
    ∧ (fund value round).drawBlockNumber = round.drawBlockNumber
    ∧ (fund value round).vrfRequestId = round.vrfRequestId
    ∧ (fund value round).numbers = round.numbers
    ∧ (fund value round).closureBlockNumber = round.closureBlockNumber
    ∧ (fund value round).winners = round.winners := by
  refine ⟨rfl, ?_, ?_, ?_, rfl, rfl, rfl, rfl, rfl, rfl, rfl, rfl, rfl⟩
  · simp [fund]
  · omega
  · intro i hi
    simp [fund, Function.update_noteq hi]

/-- Witness for C4 at `value = 300` on the zero round: the stash share is
`300 * 60 / 248 = 72` and the untouched pot at index 0 stays 0. -/
theorem fund_split_witness :
    (fund 300 round0).prizes 0 = round0.prizes 0 ∧ (fund 300 round0).stash = 72 :=
  ⟨(fund_split 300 round0).2.2.2.1 0 (by decide),
   by rw [(fund_split 300 round0).1]; rfl⟩

/-- C5: when a round is closed and a new round is appended, each of the
categories 0..3 carries its pot over exactly when it had zero winners (and is
reset to 0 otherwise); the new jackpot pot is the closed round's stash when
the jackpot category had at least one winner, and otherwise both the jackpot
pot and the stash carry over unchanged. -/
theorem createNewRound_carry (bp : Nat) (prev : RoundData) :
    (∀ i : Fin 5, i.val < 4 →
        (createNewRound bp prev).prizes i
          = if prev.winners i = 0 then prev.prizes i else 0)
    ∧ (0 < prev.winners 4 → (createNewRound bp prev).prizes 4 = prev.stash)
    ∧ (prev.winners 4 = 0 →
        (createNewRound bp prev).prizes 4 = prev.prizes 4
        ∧ (createNewRound bp prev).stash = prev.stash) := by
  refine ⟨?_, ?_, ?_⟩
  · intro i hi
    fin_cases i
    · rfl
    · rfl
    · rfl
    · rfl
    · exact absurd hi (by decide)
  · intro h
    show (if prev.winners 4 > 0 then prev.stash else prev.prizes 4) = prev.stash
    rw [if_pos h]
  · intro h
    refine ⟨?_, ?_⟩
    · show (if prev.winners 4 > 0 then prev.stash else prev.prizes 4) = prev.prizes 4
      rw [if_neg (by omega)]
    · show (if prev.winners 4 > 0 then 0 else prev.stash) = prev.stash
      rw [if_neg (by omega)]

/-- Witness for C5 on the zero round (no winners anywhere): every pot and the
stash carry over. -/
theorem createNewRound_carry_witness :
    (createNewRound 7 round0).prizes 0 = (if round0.winners 0 = 0 then round0.prizes 0 else 0)
    ∧ (createNewRound 7 round0).prizes 4 = round0.prizes 4
    ∧ (createNewRound 7 round0).stash = round0.stash :=
  ⟨(createNewRound_carry 7 round0).1 0 (by decide),
   ((createNewRound_carry 7 round0).2.2 rfl).1,
   ((createNewRound_carry 7 round0).2.2 rfl).2⟩

/-- A closed round in which the jackpot category had one winner, with a stash
of 7 and a jackpot pot of 3. -/
def prevC6 : RoundData :=
  { round0 with
    prizes := fun i => if i = 4 then 3 else 0
    stash := 7
    winners := fun i => if i = 4 then 1 else 0 }

/-- Counterexample to C6 as stated: in a round where somebody won the jackpot
(`winners[4] = 1`), the new round's jackpot pot is exactly the closed round's
stash (7) — the stash IS moved into the next round's jackpot precisely when
someone wins it, not when nobody does. -/
theorem stash_carry_counterexample :
    0 < prevC6.winners 4
    ∧ (createNewRound 1 prevC6).prizes 4 = prevC6.stash
    ∧ (createNewRound 1 prevC6).prizes 4 ≠ prevC6.prizes 4
    ∧ (createNewRound 1 prevC6).stash = 0 := by
  refine ⟨?_, ?_, ?_, ?_⟩ <;> decide

/-- C6 amended: the closed round's stash is moved into the next round's
jackpot exactly when the closed round has at least one winner in the jackpot
category (the stash is then reset); when nobody wins the jackpot, the jackpot
pot and the stash both carry over unchanged. -/
theorem stash_carry_amended (bp : Nat) (prev : RoundData) :
    (0 < prev.winners 4 →
        (createNewRound bp prev).prizes 4 = prev.stash
        ∧ (createNewRound bp prev).stash = 0)
    ∧ (prev.winners 4 = 0 →
        (createNewRound bp prev).prizes 4 = prev.prizes 4
        ∧ (createNewRound bp prev).stash = prev.stash) := by
  refine ⟨fun h => ⟨?_, ?_⟩, fun h => ⟨?_, ?_⟩⟩
  · show (if prev.winners 4 > 0 then prev.stash else prev.prizes 4) = prev.stash
    rw [if_pos h]
  · show (if prev.winners 4 > 0 then 0 else prev.stash) = 0
    rw [if_pos h]
  · show (if prev.winners 4 > 0 then prev.stash else prev.prizes 4) = prev.prizes 4
    rw [if_neg (by omega)]
  · show (if prev.winners 4 > 0 then 0 else prev.stash) = prev.stash
    rw [if_neg (by omega)]

/-- Witness for the amended C6 on `prevC6` (one jackpot winner): the stash
moves to the new jackpot and is reset. -/
theorem stash_carry_amended_witness :
    (createNewRound 1 prevC6).prizes 4 = prevC6.stash
    ∧ (createNewRound 1 prevC6).stash = 0 :=
  (stash_carry_amended 1 prevC6).1 (by decide)

/-- C7: `_choose6` returns 0 below cardinality 6 and the exact binomial
coefficient `C(n, 6)` everywhere (in particular on 6..90, where the product
`n * (n-1) * ... * (n-5)` is exactly divisible by 720), and `_choose` returns
the exact binomial coefficient `C(n, k)` for all inputs — 0 when `k > n` and
1 when `k = 0`; in particular `_choose6 6 = 1`, `_choose6 7 = 7`,
`_choose6 8 = 28` and `_choose6 5 = 0`. -/
theorem choose_functions_correct :
    (∀ n, n < 6 → choose6 n = 0)
    ∧ (∀ n, choose6 n = Nat.choose n 6)
    ∧ (∀ n, 6 ≤ n → 720 ∣ n * (n - 1) * (n - 2) * (n - 3) * (n - 4) * (n - 5))
    ∧ (∀ n k, chooseFn n k = Nat.choose n k)
    ∧ (∀ n k, k > n → chooseFn n k = 0)
    ∧ (∀ n, chooseFn n 0 = 1)
    ∧ choose6 6 = 1 ∧ choose6 7 = 7 ∧ choose6 8 = 28 ∧ choose6 5 = 0 := by
  refine ⟨?_, choose6_eq, ?_, chooseFn_eq, ?_, ?_, rfl, rfl, rfl, rfl⟩
  · intro n h
    simp [choose6, h]
  · intro n _
    have h720 : (720 : Nat) = Nat.factorial 6 := by norm_num [Nat.factorial]
    rw [descFactorial_six, h720]
    exact Nat.factorial_dvd_descFactorial n 6
  · intro n k h
    rw [chooseFn_eq]
    exact Nat.choose_eq_zero_of_lt h
  · intro n
    rw [chooseFn_eq]
    exact Nat.choose_zero_right n

/-- Witness for C7: the hypothesis-carrying conjuncts instantiated at
cardinality 5 (below 6), at 10 (within 6..90) and at `k = 5 > n = 3`. -/
theorem choose_functions_correct_witness :
    choose6 5 = 0
    ∧ 720 ∣ 10 * (10 - 1) * (10 - 2) * (10 - 3) * (10 - 4) * (10 - 5)
    ∧ chooseFn 3 5 = 0 :=
  ⟨choose_functions_correct.1 5 (by decide),
   choose_functions_correct.2.2.1 10 (by decide),
   choose_functions_correct.2.2.2.2.1 3 5 (by decide)⟩

theorem foldl_add_range' (f : Nat → Nat) :
    ∀ n a acc, (List.range' a n).foldl (fun acc i => acc + f i) acc
      = acc + ∑ i ∈ Finset.Ico a (a + n), f i := by
  intro n
  induction n with
  | zero => intro a acc; simp
  | succ m ih =>
    intro a acc
    rw [List.range'_succ, List.foldl_cons, ih (a + 1) (acc + f a),
      @Finset.sum_eq_sum_Ico_succ_bot _ _ a (a + (m + 1)) (by omega) f]
    have h : a + 1 + m = a + (m + 1) := by omega
    rw [h]
    omega

theorem prizeLoop_eq_referencePrize (round : RoundData) (cardinality m : Nat) :
    prizeLoop round cardinality m = referencePrize round cardinality m := by
  unfold prizeLoop referencePrize
  rw [foldl_add_range']
  have hico : Finset.Ico 2 (2 + (m - 1)) = Finset.Icc 2 m := by
    ext x
    simp only [Finset.mem_Ico, Finset.mem_Icc]
    omega
  rw [Nat.zero_add, hico]
  exact Finset.sum_congr rfl fun i _ => by simp [chooseFn_eq]

/-- C1: for every ticket of an already closed round (one the prize view does
not reject as current), the prize computed by `_getPrizeData` equals the
reference computation of the claim: with `matchCount` the count of the
round's 6 drawn numbers whose prime divides the ticket's hash, the prize is
the per-category truncated sum of
`prizes[i-2] * (C(matchCount,i) * C(cardinality-matchCount,6-i)) / winners[i-2]`
for `i` from 2 to `matchCount`, categories counting only with positive
weight; in particular a ticket with fewer than 2 matches gets prize 0. -/
theorem closed_round_prize (s : LotteryState) (ticketId : Nat) (pd : PrizeData)
    (h : getPrizeData s ticketId = .ok pd) :
    pd.ticket.round < getCurrentRound s
    ∧ pd.prize
        = referencePrize (s.rounds.getD pd.ticket.round round0) pd.ticket.cardinality
            (countMatches pd.ticket.hash (s.rounds.getD pd.ticket.round round0).numbers)
    ∧ (countMatches pd.ticket.hash (s.rounds.getD pd.ticket.round round0).numbers < 2
        → pd.prize = 0) := by
  unfold getPrizeData at h
  dsimp only [] at h
  split at h
  · simp at h
  · split at h
    · simp at h
    · split at h
      · simp at h
      next hround =>
        rw [Except.ok.injEq] at h
        subst h
        dsimp only []
        refine ⟨by omega, prizeLoop_eq_referencePrize _ _ _, ?_⟩
        intro hm
        show prizeLoop _ _ _ = 0
        rw [prizeLoop_eq_referencePrize]
        unfold referencePrize
        rw [Finset.Icc_eq_empty (by omega), Finset.sum_empty]

/-- The closed round used by the C1 witness: drawn numbers 1..6, a jackpot
pot of 100 and one winning 6-combination. -/
def roundC1 : RoundData :=
  { round0 with
    prizes := fun i => if i = 4 then 100 else 0
    numbers := fun i => i.val + 1
    winners := fun i => if i = 4 then 1 else 0 }

/-- The ticket used by the C1 witness: numbers 1..6, so its hash is
`2*3*5*7*11*13 = 30030`; it belongs to round 1. -/
def tC1 : TicketData :=
  { hash := 30030, blockNumber := 1, id := 1, round := 1, cardinality := 6,
    withdrawn := false }

/-- The state used by the C1 witness: round 1 is closed (round 2 is current),
player 5 holds ticket 1. -/
def sC1 : LotteryState :=
  { playersByTicket := [0, 5]
    ticketsByPlayer := fun p => if p = 5 then [tC1] else []
    rounds := [round0, roundC1, round0]
    transfers := [] }

def pdC1 : PrizeData :=
  { player := 5, pos := 0, ticket := tC1, prize := 100 }

/-- Witness for C1: on `sC1` the prize view yields exactly `pdC1`, whose
prize 100 (the whole jackpot pot) equals the reference computation. -/
theorem closed_round_prize_witness :
    pdC1.ticket.round < getCurrentRound sC1
    ∧ pdC1.prize
        = referencePrize (sC1.rounds.getD pdC1.ticket.round round0) pdC1.ticket.cardinality
            (countMatches pdC1.ticket.hash (sC1.rounds.getD pdC1.ticket.round round0).numbers)
    ∧ (countMatches pdC1.ticket.hash (sC1.rounds.getD pdC1.ticket.round round0).numbers < 2
        → pdC1.prize = 0) :=
  closed_round_prize sC1 1 pdC1 (by rfl)

theorem primeList_prime : ∀ p ∈ primeList, Nat.Prime p := by
  intro p hp
  fin_cases hp <;> norm_num

set_option maxRecDepth 4000 in
theorem getPrime_mem : ∀ n, n < 91 → 1 ≤ n → getPrime n ∈ primeList := by decide

set_option maxRecDepth 20000 in
theorem getPrime_inj :
    ∀ n, n < 91 → ∀ m, m < 91 → 1 ≤ n → 1 ≤ m → getPrime n = getPrime m → n = m := by
  decide

theorem encode_dvd_iff (numbers : List Nat)
    (hrange : ∀ n ∈ numbers, 1 ≤ n ∧ n ≤ 90)
    (n : Nat) (h1 : 1 ≤ n) (h2 : n ≤ 90) :
    getPrime n ∣ encode numbers ↔ n ∈ numbers := by
  constructor
  · intro hd
    have hp : Nat.Prime (getPrime n) := primeList_prime _ (getPrime_mem n (by omega) h1)
    rcases hp.prime.dvd_prod_iff.mp hd with ⟨a, ha, hpa⟩
    rcases List.mem_map.mp ha with ⟨m, hm, rfl⟩
    have hm1 := (hrange m hm).1
    have hm2 := (hrange m hm).2
    have hq : Nat.Prime (getPrime m) := primeList_prime _ (getPrime_mem m (by omega) hm1)
    have heq := (Nat.prime_dvd_prime_iff_eq hp hq).mp hpa
    have := getPrime_inj n (by omega) m (by omega) h1 hm1 heq
    subst this
    exact hm
  · intro hn
    exact List.dvd_prod (List.mem_map_of_mem getPrime hn)

/-- C9: for every valid number set (6 to 90 distinct values in 1..90),
decoding the prime-product encoding recovers exactly the original set:
membership coincides, the decoded list is a permutation of the input, the
encoding does not depend on the order of the input, and the hash is
divisible by the prime of a number 1..90 exactly when that number was
chosen. -/
theorem decode_encode (numbers : List Nat)
    (hnd : numbers.Nodup)
    (hrange : ∀ n ∈ numbers, 1 ≤ n ∧ n ≤ 90)
    (hlen1 : 6 ≤ numbers.length) (hlen2 : numbers.length ≤ 90) :
    (∀ n, n ∈ getTicketNumbers (encode numbers) ↔ n ∈ numbers)
    ∧ (getTicketNumbers (encode numbers)).Perm numbers
    ∧ (∀ l, l.Perm numbers → encode l = encode numbers)
    ∧ (∀ n, 1 ≤ n → n ≤ 90 → (encode numbers % getPrime n = 0 ↔ n ∈ numbers)) := by
  have key : ∀ n, 1 ≤ n → n ≤ 90 → (encode numbers % getPrime n = 0 ↔ n ∈ numbers) := by
    intro n h1 h2
    rw [← Nat.dvd_iff_mod_eq_zero]
    exact encode_dvd_iff numbers hrange n h1 h2
  have memIff : ∀ n, n ∈ getTicketNumbers (encode numbers) ↔ n ∈ numbers := by
    intro n
    unfold getTicketNumbers
    rw [List.mem_filter]
    constructor
    · rintro ⟨hr, hdiv⟩
      have hn := List.mem_range'_1.mp hr
      exact (key n hn.1 (by omega)).mp (by simpa using hdiv)
    · intro hn
      refine ⟨List.mem_range'_1.mpr ⟨(hrange n hn).1, ?_⟩, ?_⟩
      · have := (hrange n hn).2; omega
      · simpa using (key n (hrange n hn).1 (hrange n hn).2).mpr hn
  refine ⟨memIff, ?_, ?_, key⟩
  · refine List.perm_of_nodup_nodup_toFinset_eq
      (List.Nodup.filter _ (List.nodup_range' 1 90 1 (by norm_num))) hnd ?_
    ext x
    simp only [List.mem_toFinset]
    exact memIff x
  · intro l hl
    unfold encode
    exact (hl.map getPrime).prod_eq

/-- Witness for C9 on the ticket 1..6 (hash `2*3*5*7*11*13`): decoding
recovers the set, and 7 is recognized as not chosen. -/
theorem decode_encode_witness :
    (3 ∈ getTicketNumbers (encode [1, 2, 3, 4, 5, 6]) ↔ 3 ∈ [1, 2, 3, 4, 5, 6])
    ∧ (encode [1, 2, 3, 4, 5, 6] % getPrime 7 = 0 ↔ 7 ∈ [1, 2, 3, 4, 5, 6]) :=
  ⟨(decode_encode [1, 2, 3, 4, 5, 6] (by decide) (by decide) (by decide) (by decide)).1 3,
   (decode_encode [1, 2, 3, 4, 5, 6] (by decide) (by decide) (by decide)
      (by decide)).2.2.2 7 (by decide) (by decide)⟩

theorem set_getD_self (l : List Nat) (i d : Nat) (h : i < l.length) :
    l.set i (l.getD i d) = l := by
  apply List.ext_getElem (by simp)
  intro n h1 h2
  rw [List.getElem_set]
  split_ifs with he
  · subst he
    exact List.getD_eq_getElem l d h2
  · rfl

theorem findTicket_some (ids : List Nat) (tid : Nat) :
    ∀ fuel i j k, findTicket ids tid fuel i j = some k →
      i ≤ k ∧ k < j ∧ ids.getD k 0 = tid := by
  intro fuel
  induction fuel with
  | zero => intro i j k h; simp [findTicket] at h
  | succ f ih =>
    intro i j k h
    simp only [findTicket] at h
    by_cases h1 : j > i
    · rw [if_pos h1] at h
      by_cases h2 : tid < ids.getD (i + (j - i) / 2) 0
      · rw [if_pos h2] at h
        obtain ⟨ha, hb, hc⟩ := ih _ _ _ h
        exact ⟨ha, by omega, hc⟩
      · rw [if_neg h2] at h
        by_cases h3 : tid > ids.getD (i + (j - i) / 2) 0
        · rw [if_pos h3] at h
          obtain ⟨ha, hb, hc⟩ := ih _ _ _ h
          exact ⟨by omega, hb, hc⟩
        · rw [if_neg h3, Option.some.injEq] at h
          subst h
          exact ⟨by omega, by omega, by omega⟩
    · rw [if_neg h1] at h
      simp at h

theorem getTicket_some (tickets : List TicketData) (tid pos : Nat)
    (h : getTicket tickets tid = some pos) :
    pos < tickets.length ∧ (tickets.map TicketData.id).getD pos 0 = tid := by
  unfold getTicket at h
  obtain ⟨_, hb, hc⟩ := findTicket_some _ _ _ _ _ _ h
  exact ⟨hb, hc⟩

theorem getTicket_set_withdrawn (tickets : List TicketData) (tid pos : Nat)
    (h : getTicket tickets tid = some pos) :
    getTicket (tickets.set pos { tickets.getD pos ticket0 with withdrawn := true }) tid
      = some pos := by
  obtain ⟨hlt, _⟩ := getTicket_some tickets tid pos h
  have hmap :
      (tickets.set pos { tickets.getD pos ticket0 with withdrawn := true }).map TicketData.id
        = tickets.map TicketData.id := by
    rw [List.map_set]
    have hid : TicketData.id { tickets.getD pos ticket0 with withdrawn := true }
        = (tickets.map TicketData.id).getD pos 0 := by
      dsimp only []
      rw [List.getD_eq_getElem tickets ticket0 hlt,
        List.getD_eq_getElem _ 0 (by simpa using hlt), List.getElem_map]
    rw [hid, set_getD_self _ _ _ (by simpa using hlt)]
  unfold getTicket at h ⊢
  rw [List.length_set, hmap]
  exact h

theorem getPrizeData_ok_inv (s : LotteryState) (tid : Nat) (pd : PrizeData)
    (h : getPrizeData s tid = .ok pd) :
    tid < s.playersByTicket.length
    ∧ pd.player = s.playersByTicket.getD tid 0
    ∧ getTicket (s.ticketsByPlayer pd.player) tid = some pd.pos
    ∧ pd.ticket = (s.ticketsByPlayer pd.player).getD pd.pos ticket0
    ∧ pd.ticket.round < getCurrentRound s
    ∧ pd.prize = ticketPrize (s.rounds.getD pd.ticket.round round0) pd.ticket := by
  unfold getPrizeData at h
  dsimp only [] at h
  split at h
  · simp at h
  next hlen =>
    split at h
    · simp at h
    next pos hget =>
      split at h
      · simp at h
      next hround =>
        rw [Except.ok.injEq] at h
        subst h
        dsimp only []
        exact ⟨by omega, rfl, hget, rfl, by omega, rfl⟩

theorem withdrawPrize_ok_inv (s : LotteryState) (tid : Nat) (s2 : LotteryState)
    (h : withdrawPrize s tid = .ok s2) :
    ∃ pd, getPrizeData s tid = .ok pd ∧ pd.prize ≠ 0 ∧ pd.ticket.withdrawn = false
      ∧ s2 = recordTransfer (markWithdrawn s pd.player pd.pos) pd.player pd.prize := by
  unfold withdrawPrize at h
  cases hpd : getPrizeData s tid with
  | error e => rw [hpd] at h; simp at h
  | ok pd =>
    rw [hpd] at h
    dsimp only [] at h
    by_cases hp : pd.prize = 0
    · rw [if_pos hp] at h; simp at h
    · rw [if_neg hp] at h
      by_cases hw : pd.ticket.withdrawn = true
      · rw [if_pos hw] at h; simp at h
      · rw [if_neg hw] at h
        rw [Except.ok.injEq] at h
        refine ⟨pd, rfl, hp, ?_, h.symm⟩
        revert hw
        cases pd.ticket.withdrawn <;> simp

theorem withdrawPrize_after_ok (s : LotteryState) (tid : Nat) (s2 : LotteryState)
    (h : withdrawPrize s tid = .ok s2) :
    withdrawPrize s2 tid = .error (.PrizeAlreadyWithdrawn tid) := by
  obtain ⟨pd, hpd, hp, hw, rfl⟩ := withdrawPrize_ok_inv s tid s2 h
  obtain ⟨hlen, hplayer, hget, hticket, hround, hprize⟩ := getPrizeData_ok_inv s tid pd hpd
  obtain ⟨hpos, _⟩ := getTicket_some _ _ _ hget
  have hround2 : pd.ticket.round < s.rounds.length - 1 := by
    have := hround
    unfold getCurrentRound at this
    omega
  have hpd2 : getPrizeData
        (recordTransfer (markWithdrawn s pd.player pd.pos) pd.player pd.prize) tid
      = .ok { player := pd.player, pos := pd.pos,
              ticket := { pd.ticket with withdrawn := true },
              prize := ticketPrize (s.rounds.getD pd.ticket.round round0) pd.ticket } := by
    unfold getPrizeData
    dsimp only [recordTransfer, markWithdrawn, getCurrentRound]
    rw [if_neg (by omega : ¬ tid ≥ s.playersByTicket.length), if_pos hplayer.symm,
      getTicket_set_withdrawn _ _ _ hget]
    dsimp only []
    rw [List.getD_eq_getElem _ _ (by simpa using hpos), List.getElem_set, if_pos rfl,
      ← hticket, ← hplayer]
    dsimp only []
    rw [if_neg (by omega : ¬ pd.ticket.round ≥ s.rounds.length - 1)]
    rfl
  have hprize2 : ¬ ticketPrize (s.rounds.getD pd.ticket.round round0) pd.ticket = 0 := by
    rw [← hprize]
    exact hp
  unfold withdrawPrize
  rw [hpd2]
  dsimp only []
  rw [if_neg hprize2, if_pos rfl]

/-- C8: `withdrawPrize` fails with `NoPrizeError` when the computed prize is
0 and with `PrizeAlreadyWithdrawnError` when the ticket is already marked
withdrawn (a failure reverts, leaving the stored state unchanged); on success
the resulting state is exactly the input state with the ticket marked
withdrawn and then the prize transfer recorded (mark-then-transfer), and a
second withdrawal attempt on the same ticket always fails with
`PrizeAlreadyWithdrawnError`. -/
theorem withdrawPrize_guards (s : LotteryState) (tid : Nat) :
    (∀ pd, getPrizeData s tid = .ok pd → pd.prize = 0 →
        withdrawPrize s tid = .error (.NoPrize tid))
    ∧ (∀ pd, getPrizeData s tid = .ok pd → pd.prize ≠ 0 → pd.ticket.withdrawn = true →
        withdrawPrize s tid = .error (.PrizeAlreadyWithdrawn tid))
    ∧ (∀ s2, withdrawPrize s tid = .ok s2 →
        ∃ pd, getPrizeData s tid = .ok pd ∧ pd.prize ≠ 0 ∧ pd.ticket.withdrawn = false
          ∧ s2 = recordTransfer (markWithdrawn s pd.player pd.pos) pd.player pd.prize)
    ∧ (∀ s2, withdrawPrize s tid = .ok s2 →
        withdrawPrize s2 tid = .error (.PrizeAlreadyWithdrawn tid)) := by
  refine ⟨?_, ?_, withdrawPrize_ok_inv s tid, withdrawPrize_after_ok s tid⟩
  · intro pd hpd hp
    unfold withdrawPrize
    rw [hpd]
    dsimp only []
    rw [if_pos hp]
  · intro pd hpd hp hw
    unfold withdrawPrize
    rw [hpd]
    dsimp only []
    rw [if_neg hp, if_pos hw]

/-- Witness for C8 on the concrete state `sC1`: withdrawing the prize of
ticket 1 succeeds once, and the attempt to withdraw it again on the resulting
state fails with `PrizeAlreadyWithdrawnError`. -/
theorem withdrawPrize_guards_witness :
    withdrawPrize (recordTransfer (markWithdrawn sC1 5 0) 5 100) 1
      = .error (.PrizeAlreadyWithdrawn 1) :=
  (withdrawPrize_guards sC1 1).2.2.2 (recordTransfer (markWithdrawn sC1 5 0) 5 100) (by rfl)

end Exalotto
